import Mathlib

/-!
Shallow embedding of the double-pendulum core of the doublethe.fun
repository: the Lagrangian dynamics model, the fixed-step RK4 integrator,
the per-pixel chaos-divergence field evaluator of the fragment shader, and
the audio sampling helpers.  All numeric code is embedded over an abstract
linear ordered field `K` (instantiable at the rationals for concrete
evaluation and at the reals), with the transcendental library functions
(sin, cos, atan2, sqrt) abstracted as explicit function parameters, since
the source computes with them only as black boxes.
-/

namespace DoubleTheFun

/-- Abstract interface for the trigonometric library functions the source
calls (Math.sin / Math.cos in TypeScript, sin / cos in GLSL).  The physics
code uses them as black boxes, so the embedding takes them as parameters. -/
structure Trig (K : Type) where
  sin : K → K
  cos : K → K

variable {K : Type} [LinearOrderedField K]

/-- Embedding of the Pendulum record of src/components/DoublePendulum.tsx
and src/components/PendulumCanvas.tsx: one link of the chain. -/
@[ext]
structure Pendulum (K : Type) where
  angle : K
  momentum : K
  length : K
  mass : K

/-- Embedding of the PendulumPair type: an ordered pair of links, the first
attached to the fixed pivot and the second to the end of the first. -/
abbrev PendulumPair (K : Type) := Pendulum K × Pendulum K

/-- Embedding of the deriviative function of src/components/DoublePendulum.tsx
(lines 4 to 27), spelled as in the source.  Returns the 4-tuple
(da1, da2, dp1, dp2) of time derivatives of the two angles and momenta. -/
def deriviative (T : Trig K) (pendulums : PendulumPair K) (gravity : K) :
    K × K × K × K :=
  let cos12 := T.cos (pendulums.1.angle - pendulums.2.angle)
  let sin12 := T.sin (pendulums.1.angle - pendulums.2.angle)
  let da1 :=
    ((6 / (pendulums.1.mass * pendulums.1.length * pendulums.1.length)) *
      (2 * pendulums.1.momentum - 3 * cos12 * pendulums.2.momentum)) /
    (16 - 9 * cos12 * cos12)
  let da2 :=
    ((6 / (pendulums.2.mass * pendulums.2.length * pendulums.2.length)) *
      (8 * pendulums.2.momentum - 3 * cos12 * pendulums.1.momentum)) /
    (16 - 9 * cos12 * cos12)
  let dp1 :=
    ((pendulums.1.mass * pendulums.1.length * pendulums.1.length) / -2) *
    (da1 * da2 * sin12 +
      ((3 * gravity) / pendulums.1.length) * T.sin pendulums.1.angle)
  let dp2 :=
    ((pendulums.2.mass * pendulums.2.length * pendulums.2.length) / -2) *
    (-da1 * da2 * sin12 +
      ((3 * gravity) / pendulums.2.length) * T.sin pendulums.2.angle)
  (da1, da2, dp1, dp2)

/-- Embedding of the rk4 function of src/components/DoublePendulum.tsx
(lines 30 to 88): advance a pendulum pair by one time step dt with the
classical 4-stage Runge-Kutta scheme.  Tuple destructuring of the source is
rendered with tuple projections (.1 is da1, .2.1 is da2, .2.2.1 is dp1,
.2.2.2 is dp2). -/
def rk4 (T : Trig K) (pendulums : PendulumPair K) (gravity : K) (dt : K) :
    PendulumPair K :=
  let k1 := deriviative T pendulums gravity
  let k2a1 := pendulums.1.angle + (k1.1 * dt) / 2
  let k2a2 := pendulums.2.angle + (k1.2.1 * dt) / 2
  let k2p1 := pendulums.1.momentum + (k1.2.2.1 * dt) / 2
  let k2p2 := pendulums.2.momentum + (k1.2.2.2 * dt) / 2
  let k2pendulums : PendulumPair K :=
    ({ pendulums.1 with angle := k2a1, momentum := k2p1 },
     { pendulums.2 with angle := k2a2, momentum := k2p2 })
  let k2 := deriviative T k2pendulums gravity
  let k3a1 := pendulums.1.angle + (k2.1 * dt) / 2
  let k3a2 := pendulums.2.angle + (k2.2.1 * dt) / 2
  let k3p1 := pendulums.1.momentum + (k2.2.2.1 * dt) / 2
  let k3p2 := pendulums.2.momentum + (k2.2.2.2 * dt) / 2
  let k3pendulums : PendulumPair K :=
    ({ pendulums.1 with angle := k3a1, momentum := k3p1 },
     { pendulums.2 with angle := k3a2, momentum := k3p2 })
  let k3 := deriviative T k3pendulums gravity
  let k4a1 := pendulums.1.angle + k3.1 * dt
  let k4a2 := pendulums.2.angle + k3.2.1 * dt
  let k4p1 := pendulums.1.momentum + k3.2.2.1 * dt
  let k4p2 := pendulums.2.momentum + k3.2.2.2 * dt
  let k4pendulums : PendulumPair K :=
    ({ pendulums.1 with angle := k4a1, momentum := k4p1 },
     { pendulums.2 with angle := k4a2, momentum := k4p2 })
  let k4 := deriviative T k4pendulums gravity
  ({ pendulums.1 with
      angle :=
        pendulums.1.angle + ((k1.1 + 2 * k2.1 + 2 * k3.1 + k4.1) * dt) / 6,
      momentum :=
        pendulums.1.momentum +
        ((k1.2.2.1 + 2 * k2.2.2.1 + 2 * k3.2.2.1 + k4.2.2.1) * dt) / 6 },
   { pendulums.2 with
      angle :=
        pendulums.2.angle + ((k1.2.1 + 2 * k2.2.1 + 2 * k3.2.1 + k4.2.1) * dt) / 6,
      momentum :=
        pendulums.2.momentum +
        ((k1.2.2.2 + 2 * k2.2.2.2 + 2 * k3.2.2.2 + k4.2.2.2) * dt) / 6 })

/-- Embedding of createPendulums of src/components/PendulumCanvas.tsx
(lines 1454 to 1473, identical to the copy in DoublePendulum.tsx): build a
pair from starting angles, lengths and masses, with both momenta zero. -/
def createPendulums (startingAngles : K × K) (lengths : K × K)
    (masses : K × K) : PendulumPair K :=
  (⟨startingAngles.1, 0, lengths.1, masses.1⟩,
   ⟨startingAngles.2, 0, lengths.2, masses.2⟩)

namespace PendulumSimulator

/-- Embedding of the private derivative method of the PendulumSimulator
class in src/components/PendulumCanvas.tsx (lines 1539 to 1564). -/
def derivative (T : Trig K) (gravity : K) (pendulums : PendulumPair K) :
    K × K × K × K :=
  let cosDiff := T.cos (pendulums.1.angle - pendulums.2.angle)
  let sinDiff := T.sin (pendulums.1.angle - pendulums.2.angle)
  let dAngle1 :=
    ((6 / (pendulums.1.mass * pendulums.1.length * pendulums.1.length)) *
      (2 * pendulums.1.momentum - 3 * cosDiff * pendulums.2.momentum)) /
    (16 - 9 * cosDiff * cosDiff)
  let dAngle2 :=
    ((6 / (pendulums.2.mass * pendulums.2.length * pendulums.2.length)) *
      (8 * pendulums.2.momentum - 3 * cosDiff * pendulums.1.momentum)) /
    (16 - 9 * cosDiff * cosDiff)
  let dMomentum1 :=
    ((pendulums.1.mass * pendulums.1.length * pendulums.1.length) / -2) *
    (dAngle1 * dAngle2 * sinDiff +
      ((3 * gravity) / pendulums.1.length) * T.sin pendulums.1.angle)
  let dMomentum2 :=
    ((pendulums.2.mass * pendulums.2.length * pendulums.2.length) / -2) *
    (-dAngle1 * dAngle2 * sinDiff +
      ((3 * gravity) / pendulums.2.length) * T.sin pendulums.2.angle)
  (dAngle1, dAngle2, dMomentum1, dMomentum2)

/-- Embedding of the step method of the PendulumSimulator class in
src/components/PendulumCanvas.tsx (lines 1486 to 1537), written as a pure
state transformer: the in-place mutation of the pendulums field followed by
getState is rendered as returning the new pair. -/
def step (T : Trig K) (timeStep : K) (pendulums : PendulumPair K)
    (gravity : K) : PendulumPair K :=
  let k1 := derivative T gravity pendulums
  let k2a1 := pendulums.1.angle + (k1.1 * timeStep) / 2
  let k2a2 := pendulums.2.angle + (k1.2.1 * timeStep) / 2
  let k2p1 := pendulums.1.momentum + (k1.2.2.1 * timeStep) / 2
  let k2p2 := pendulums.2.momentum + (k1.2.2.2 * timeStep) / 2
  let k2pendulums : PendulumPair K :=
    ({ pendulums.1 with angle := k2a1, momentum := k2p1 },
     { pendulums.2 with angle := k2a2, momentum := k2p2 })
  let k2 := derivative T gravity k2pendulums
  let k3a1 := pendulums.1.angle + (k2.1 * timeStep) / 2
  let k3a2 := pendulums.2.angle + (k2.2.1 * timeStep) / 2
  let k3p1 := pendulums.1.momentum + (k2.2.2.1 * timeStep) / 2
  let k3p2 := pendulums.2.momentum + (k2.2.2.2 * timeStep) / 2
  let k3pendulums : PendulumPair K :=
    ({ pendulums.1 with angle := k3a1, momentum := k3p1 },
     { pendulums.2 with angle := k3a2, momentum := k3p2 })
  let k3 := derivative T gravity k3pendulums
  let k4a1 := pendulums.1.angle + k3.1 * timeStep
  let k4a2 := pendulums.2.angle + k3.2.1 * timeStep
  let k4p1 := pendulums.1.momentum + k3.2.2.1 * timeStep
  let k4p2 := pendulums.2.momentum + k3.2.2.2 * timeStep
  let k4pendulums : PendulumPair K :=
    ({ pendulums.1 with angle := k4a1, momentum := k4p1 },
     { pendulums.2 with angle := k4a2, momentum := k4p2 })
  let k4 := derivative T gravity k4pendulums
  ({ pendulums.1 with
      angle :=
        pendulums.1.angle + ((k1.1 + 2 * k2.1 + 2 * k3.1 + k4.1) * timeStep) / 6,
      momentum :=
        pendulums.1.momentum +
        ((k1.2.2.1 + 2 * k2.2.2.1 + 2 * k3.2.2.1 + k4.2.2.1) * timeStep) / 6 },
   { pendulums.2 with
      angle :=
        pendulums.2.angle +
        ((k1.2.1 + 2 * k2.2.1 + 2 * k3.2.1 + k4.2.1) * timeStep) / 6,
      momentum :=
        pendulums.2.momentum +
        ((k1.2.2.2 + 2 * k2.2.2.2 + 2 * k3.2.2.2 + k4.2.2.2) * timeStep) / 6 })

end PendulumSimulator

/-- Iterated simulator stepping: n successive calls of step with a fixed
time step and gravity, as performed by the drive loops of the audio and
animation collaborators. -/
def stepIter (T : Trig K) (timeStep gravity : K) :
    ℕ → PendulumPair K → PendulumPair K
  | 0, p => p
  | n + 1, p => stepIter T timeStep gravity n (PendulumSimulator.step T timeStep p gravity)

/-- Embedding of the GLSL vec4 values the fragment shader stores a pendulum
in: x is the length, y the mass, z the angle, w the momentum
(src/components/shader.frag, PendulumPair comment). -/
@[ext]
structure Vec4 (K : Type) where
  x : K
  y : K
  z : K
  w : K

/-- Embedding of a GLSL vec2 as an ordered pair of scalars. -/
abbrev Vec2 (K : Type) := K × K

namespace Shader

/-- Embedding of the pendulums constructor of src/components/shader.frag:
build the pair of pendulum vec4 values for a pair of starting angles, with
both momenta zero, lengths and masses taken from the uniforms. -/
def pendulums (lengths masses : Vec2 K) (angles : Vec2 K) :
    Vec4 K × Vec4 K :=
  (⟨lengths.1, masses.1, angles.1, 0⟩, ⟨lengths.2, masses.2, angles.2, 0⟩)

/-- Embedding of the derivative function of src/components/shader.frag
(lines 150 to 175).  The u_gravity uniform is a parameter.  Returns the
vec4 (dAngle1, dAngle2, dMomentum1, dMomentum2). -/
def derivative (T : Trig K) (gravity : K) (a b : Vec4 K) : Vec4 K :=
  let cosDiff := T.cos (a.z - b.z)
  let sinDiff := T.sin (a.z - b.z)
  let dAngle1 :=
    ((6 / (a.y * a.x * a.x)) * (2 * a.w - 3 * cosDiff * b.w)) /
    (16 - 9 * cosDiff * cosDiff)
  let dAngle2 :=
    ((6 / (b.y * b.x * b.x)) * (8 * b.w - 3 * cosDiff * a.w)) /
    (16 - 9 * cosDiff * cosDiff)
  let dMomentum1 :=
    ((a.y * a.x * a.x) / -2) *
    (dAngle1 * dAngle2 * sinDiff + ((3 * gravity) / a.x) * T.sin a.z)
  let dMomentum2 :=
    ((b.y * b.x * b.x) / -2) *
    (-dAngle1 * dAngle2 * sinDiff + ((3 * gravity) / b.x) * T.sin b.z)
  ⟨dAngle1, dAngle2, dMomentum1, dMomentum2⟩

/-- Embedding of the TIME_STEP constant of src/components/shader.frag:
0.03 seconds. -/
def TIME_STEP : K := 3 / 100

/-- Embedding of the EPSILON perturbation constant of
src/components/shader.frag: 0.0001 radians. -/
def EPSILON : K := 1 / 10000

/-- Embedding of the simulateTimeStep function of src/components/shader.frag
(lines 177 to 230), with the TIME_STEP constant generalized to a dt
parameter (the shader fixes dt to TIME_STEP; the host simulator runs the
same scheme at its own fixed dt).  The inout mutation of a and b is
rendered as returning the updated pair. -/
def simulateTimeStep (T : Trig K) (gravity dt : K) (a b : Vec4 K) :
    Vec4 K × Vec4 K :=
  let k1 := derivative T gravity a b
  let k1da1 := k1.x
  let k1da2 := k1.y
  let k1dp1 := k1.z
  let k1dp2 := k1.w
  let k2a1 := a.z + (k1da1 * dt) / 2
  let k2a2 := b.z + (k1da2 * dt) / 2
  let k2p1 := a.w + (k1dp1 * dt) / 2
  let k2p2 := b.w + (k1dp2 * dt) / 2
  let k2pendulumA : Vec4 K := ⟨a.x, a.y, k2a1, k2p1⟩
  let k2pendulumB : Vec4 K := ⟨b.x, b.y, k2a2, k2p2⟩
  let k2 := derivative T gravity k2pendulumA k2pendulumB
  let k2da1 := k2.x
  let k2da2 := k2.y
  let k2dp1 := k2.z
  let k2dp2 := k2.w
  let k3a1 := a.z + (k2da1 * dt) / 2
  let k3a2 := b.z + (k2da2 * dt) / 2
  let k3p1 := a.w + (k2dp1 * dt) / 2
  let k3p2 := b.w + (k2dp2 * dt) / 2
  let k3pendulumA : Vec4 K := ⟨a.x, a.y, k3a1, k3p1⟩
  let k3pendulumB : Vec4 K := ⟨b.x, b.y, k3a2, k3p2⟩
  let k3 := derivative T gravity k3pendulumA k3pendulumB
  let k3da1 := k3.x
  let k3da2 := k3.y
  let k3dp1 := k3.z
  let k3dp2 := k3.w
  let k4a1 := a.z + k3da1 * dt
  let k4a2 := b.z + k3da2 * dt
  let k4p1 := a.w + k3dp1 * dt
  let k4p2 := b.w + k3dp2 * dt
  let k4pendulumA : Vec4 K := ⟨a.x, a.y, k4a1, k4p1⟩
  let k4pendulumB : Vec4 K := ⟨b.x, b.y, k4a2, k4p2⟩
  let k4 := derivative T gravity k4pendulumA k4pendulumB
  let k4da1 := k4.x
  let k4da2 := k4.y
  let k4dp1 := k4.z
  let k4dp2 := k4.w
  (⟨a.x, a.y,
    a.z + (k1da1 + 2 * k2da1 + 2 * k3da1 + k4da1) * (dt / 6),
    a.w + (k1dp1 + 2 * k2dp1 + 2 * k3dp1 + k4dp1) * (dt / 6)⟩,
   ⟨b.x, b.y,
    b.z + (k1da2 + 2 * k2da2 + 2 * k3da2 + k4da2) * (dt / 6),
    b.w + (k1dp2 + 2 * k2dp2 + 2 * k3dp2 + k4dp2) * (dt / 6)⟩)

/-- Embedding of the uv computation of the main function of
src/components/shader.frag (line 240): normalize the fragment coordinate to
the range -0.5 .. 0.5 using the resolution and pixel density uniforms. -/
def mainUV (fragCoord resolution : Vec2 K) (dpr : K) : Vec2 K :=
  (fragCoord.1 / (resolution.1 * dpr) - 1 / 2,
   fragCoord.2 / (resolution.2 * dpr) - 1 / 2)

/-- Embedding of the starting angles of the reference trajectory in the
main function of src/components/shader.frag (line 242):
uv * u_size + u_center componentwise. -/
def referenceAngles (fragCoord resolution : Vec2 K) (dpr : K)
    (size center : Vec2 K) : Vec2 K :=
  ((mainUV fragCoord resolution dpr).1 * size.1 + center.1,
   (mainUV fragCoord resolution dpr).2 * size.2 + center.2)

/-- Embedding of the starting angles of the perturbed trajectory in the
main function of src/components/shader.frag (line 243):
uv * u_size + u_center + vec2(EPSILON) componentwise. -/
def adjacentAngles (fragCoord resolution : Vec2 K) (dpr : K)
    (size center : Vec2 K) : Vec2 K :=
  ((mainUV fragCoord resolution dpr).1 * size.1 + center.1 + EPSILON,
   (mainUV fragCoord resolution dpr).2 * size.2 + center.2 + EPSILON)

end Shader

/-- Conversion of a host-side pendulum record to the vec4 layout of the
shader: (length, mass, angle, momentum). -/
def toVec (p : Pendulum K) : Vec4 K := ⟨p.length, p.mass, p.angle, p.momentum⟩

/-- Joint 4-dimensional state vector (angle1, momentum1, angle2, momentum2)
of the spec section 4.2: both links integrated in lock-step. -/
abbrev Joint (K : Type) := K × K × K × K

/-- Componentwise addition of joint state vectors. -/
def vadd (u v : Joint K) : Joint K :=
  (u.1 + v.1, u.2.1 + v.2.1, u.2.2.1 + v.2.2.1, u.2.2.2 + v.2.2.2)

/-- Scalar multiple of a joint state vector. -/
def vsmul (c : K) (u : Joint K) : Joint K :=
  (c * u.1, c * u.2.1, c * u.2.2.1, c * u.2.2.2)

/-- Joint state view of a pendulum pair: (angle1, momentum1, angle2,
momentum2). -/
def toJoint (p : PendulumPair K) : Joint K :=
  (p.1.angle, p.1.momentum, p.2.angle, p.2.momentum)

/-- Dynamics derivative as a vector field on the joint state, with the
fixed lengths and masses as parameters: the function f of the spec RK4
scheme, built on the deriviative function of the source. -/
def jointDerivative (T : Trig K) (len1 mass1 len2 mass2 gravity : K)
    (s : Joint K) : Joint K :=
  let d := deriviative T
    (⟨s.1, s.2.1, len1, mass1⟩, ⟨s.2.2.1, s.2.2.2, len2, mass2⟩) gravity
  (d.1, d.2.2.1, d.2.1, d.2.2.2)

/-- Classical 4-stage RK4 update on the joint state, written exactly as the
spec section 4.2 states it: k1 = f(state), k2 = f(state + dt/2 k1),
k3 = f(state + dt/2 k2), k4 = f(state + dt k3), and the new state is
state + dt/6 (k1 + 2 k2 + 2 k3 + k4).  This is the spec-side scheme the
source integrator is compared against. -/
def rk4SpecScheme (T : Trig K) (len1 mass1 len2 mass2 gravity dt : K)
    (state : Joint K) : Joint K :=
  let f := jointDerivative T len1 mass1 len2 mass2 gravity
  let k1 := f state
  let k2 := f (vadd state (vsmul (dt / 2) k1))
  let k3 := f (vadd state (vsmul (dt / 2) k2))
  let k4 := f (vadd state (vsmul dt k3))
  vadd state
    (vsmul (dt / 6) (vadd (vadd k1 (vsmul 2 k2)) (vadd (vsmul 2 k3) k4)))

/-- The Lagrangian equations of motion exactly as the spec section 4.1
writes them, with cosD = cos(angle1 - angle2), sinD = sin(angle1 - angle2)
and D = 16 - 9 cosD^2.  This is the spec-side formula the source derivative
functions are compared against. -/
def derivativeSpecEquations (T : Trig K)
    (angle1 mom1 angle2 mom2 len1 mass1 len2 mass2 gravity : K) :
    K × K × K × K :=
  let cosD := T.cos (angle1 - angle2)
  let sinD := T.sin (angle1 - angle2)
  let D := 16 - 9 * cosD ^ 2
  let dAngle1 := 6 / (mass1 * len1 ^ 2) * (2 * mom1 - 3 * cosD * mom2) / D
  let dAngle2 := 6 / (mass2 * len2 ^ 2) * (8 * mom2 - 3 * cosD * mom1) / D
  let dMomentum1 :=
    -(mass1 * len1 ^ 2 / 2) *
      (dAngle1 * dAngle2 * sinD + 3 * gravity / len1 * T.sin angle1)
  let dMomentum2 :=
    -(mass2 * len2 ^ 2 / 2) *
      (-(dAngle1 * dAngle2 * sinD) + 3 * gravity / len2 * T.sin angle2)
  (dAngle1, dAngle2, dMomentum1, dMomentum2)

/-- The viewport affine map exactly as the spec section 6 writes it:
normalizedUV = pixelCoordinate / resolution - 0.5, then
startingAngles = normalizedUV * viewportSize + viewportCenter,
componentwise. -/
def specStartingAngles (pixelCoordinate resolution size center : Vec2 K) :
    Vec2 K :=
  ((pixelCoordinate.1 / resolution.1 - 1 / 2) * size.1 + center.1,
   (pixelCoordinate.2 / resolution.2 - 1 / 2) * size.2 + center.2)

/-- Truncation toward zero, the rounding used by the JavaScript remainder
operator: the remainder takes the sign of the dividend. -/
def jsTrunc [FloorRing K] (q : K) : ℤ := if 0 ≤ q then ⌊q⌋ else ⌈q⌉

/-- The JavaScript remainder x % y: x minus y times the quotient truncated
toward zero. -/
def jsRem [FloorRing K] (x y : K) : K := x - y * (jsTrunc (x / y) : K)

/-- The mathematical modulus with result in [0, y) for positive y. -/
def mathMod [FloorRing K] (x y : K) : K := x - y * (⌊x / y⌋ : K)

/-- Embedding of angleToSample of src/components/PendulumAudio.tsx
(lines 45 to 47): (angle % (2 * Math.PI)) / Math.PI - 1.0, with the
Math.PI constant abstracted as the parameter piK. -/
def angleToSample [FloorRing K] (piK : K) (angle : K) : K :=
  jsRem angle (2 * piK) / piK - 1

/-- The exact rational value of the IEEE 754 double Math.PI. -/
def piFloat : ℚ := 884279719003555 / 281474976710656

/-- Embedding of smoothAudioEnds of src/components/PendulumAudio.tsx
(lines 7 to 28, identical to smoothAudioLoop of the related copy): N is the
floor of (crossFadeMs / 1000) * sampleRate; when N is positive and 2 N is
below the length, cross-fade the first N and last N entries of the copied
window, reading the mixed values from the original samples.  The Math.PI
constant of the fade factor is the parameter piK. -/
def smoothAudioEnds [FloorRing K] (T : Trig K) (piK : K) (samples : List K)
    (crossFadeMs sampleRate : K) : List K :=
  let N : ℤ := ⌊crossFadeMs / 1000 * sampleRate⌋
  let len := samples.length
  if N ≤ 0 ∨ N * 2 ≥ (len : ℤ) then samples
  else
    (List.range N.toNat).foldl
      (fun (window : List K) (k : ℕ) =>
        let fadeOut := 1 / 2 * (1 + T.cos (piK * (k : K) / (N : K)))
        let fadeIn := 1 - fadeOut
        let tailIdx := len - N.toNat + k
        let headIdx := k
        let mixed :=
          fadeOut * samples.getD tailIdx 0 + fadeIn * samples.getD headIdx 0
        (window.set tailIdx mixed).set headIdx mixed)
      samples

namespace FM

/-!
Float model for the color-mapping step of the shader main function.  A
value is either a finite scalar (some v) or non-finite, NaN or an infinity
(none).  The arithmetic operations propagate non-finite operands, division
by zero produces a non-finite value, and the GLSL min and max inside clamp
are undefined on NaN, modelled as non-finite.  This models the IEEE
behavior relevant to the cited lines: normalize of the zero vector divides
zero by zero, and the resulting NaN flows through atan, the hue and
hsv2rgb into the fragment color.
-/

/-- Lift of a binary scalar operation to the float model, propagating
non-finite operands. -/
def lift2 (op : K → K → K) : Option K → Option K → Option K
  | some a, some b => some (op a b)
  | _, _ => none

/-- Addition in the float model. -/
def fAdd : Option K → Option K → Option K := lift2 (fun a b => a + b)

/-- Subtraction in the float model. -/
def fSub : Option K → Option K → Option K := lift2 (fun a b => a - b)

/-- Multiplication in the float model. -/
def fMul : Option K → Option K → Option K := lift2 (fun a b => a * b)

/-- Division in the float model: division by zero is non-finite (zero over
zero is NaN, anything else over zero an infinity). -/
def fDiv [DecidableEq K] : Option K → Option K → Option K
  | some a, some b => if b = 0 then none else some (a / b)
  | _, _ => none

/-- Absolute value in the float model. -/
def fAbs : Option K → Option K := Option.map (fun a => |a|)

/-- The GLSL fract function in the float model. -/
def fFract [FloorRing K] : Option K → Option K := Option.map Int.fract

/-- The GLSL clamp function with finite bounds: min and max are undefined
on a NaN operand, so a non-finite input stays non-finite. -/
def fClamp (x : Option K) (lo hi : K) : Option K :=
  x.map (fun v => min (max v lo) hi)

/-- The GLSL mix function: mix(a, b, t) = a (1 - t) + b t. -/
def fMix (a b t : Option K) : Option K := fAdd (fMul a (fSub (some 1) t)) (fMul b t)

/-- The GLSL atan(y, x) in the float model, with the finite atan2 function
abstracted as a parameter. -/
def fAtan2 (at2 : K → K → K) : Option K → Option K → Option K := lift2 at2

/-- The GLSL length of a 2-vector in the float model, with the finite
square root abstracted as a parameter. -/
def fLength (sq : K → K) (u v : Option K) : Option K :=
  (fAdd (fMul u u) (fMul v v)).map sq

/-- The GLSL normalize of a 2-vector in the float model: the vector divided
by its length. -/
def fNormalize [DecidableEq K] (sq : K → K) (u v : Option K) :
    Option K × Option K :=
  let len := fLength sq u v
  (fDiv u len, fDiv v len)

/-- The hsv2rgb function of src/components/shader.frag (lines 232 to 236)
in the float model, componentwise: with k = (1, 2/3, 1/3) and the constant
3, each component of p is abs(fract(c.x + k) * 6 - 3), and each output
component is c.z * mix(1, clamp(p - 1, 0, 1), c.y). -/
def hsv2rgb [FloorRing K] (cx cy cz : Option K) :
    Option K × Option K × Option K :=
  let p := fun (kk : K) =>
    fAbs (fSub (fMul (fFract (fAdd cx (some kk))) (some 6)) (some 3))
  let comp := fun (pc : Option K) =>
    fMul cz (fMix (some 1) (fClamp (fSub pc (some 1)) 0 1) cy)
  (comp (p 1), comp (p (2 / 3)), comp (p (1 / 3)))

/-- The color-mapping tail of the main function of src/components/shader.frag
(lines 250 to 259) in the float model, as a function of the componentwise
angle difference of the two trajectories: normalize the difference, take
hue = atan(n.y, n.x) + 0.5, saturation 0.9, value = (d1 + d2) / (2 * 2 * pi),
and convert with hsv2rgb. -/
def colorAtDiff [DecidableEq K] [FloorRing K] (sq : K → K)
    (at2 : K → K → K) (piK : K) (d : Option K × Option K) :
    Option K × Option K × Option K :=
  let n := fNormalize sq d.1 d.2
  let hue := fAdd (fAtan2 at2 n.2 n.1) (some (1 / 2))
  let saturation : Option K := some (9 / 10)
  let value := fDiv (fAdd d.1 d.2) (some (2 * 2 * piK))
  hsv2rgb hue saturation value

end FM

/-- Embedding of the simulateTimeStep function of the older shader variant
kept in src/components/shader.frag (lines 57 to 72): a single
forward-Euler stage, not RK4, with its own inline derivative whose second
momentum equation carries the gravity coefficient 1 instead of 3.  Its
TIME_STEP constant (0.025) is generalized to the dt parameter. -/
def simulateTimeStepEuler (T : Trig K) (gravity dt : K) (a b : Pendulum K) :
    Pendulum K × Pendulum K :=
  let delta := a.angle - b.angle
  let D := 16 - 9 * (T.cos delta) ^ 2
  let thetaADot := (6 / (a.mass * a.length * a.length * D)) *
    (2 * a.momentum - 3 * T.cos delta * b.momentum)
  let thetaBDot := (6 / (b.mass * b.length * b.length * D)) *
    (8 * b.momentum - 3 * T.cos delta * a.momentum)
  let momentumADot := (-1 / 2) * a.mass * a.length *
    (3 * gravity * T.sin a.angle + a.length * thetaADot * thetaBDot * T.sin delta)
  let momentumBDot := (-1 / 2) * b.mass * b.length *
    (gravity * T.sin b.angle - b.length * thetaADot * thetaBDot * T.sin delta)
  ({ a with angle := a.angle + thetaADot * dt,
            momentum := a.momentum + momentumADot * dt },
   { b with angle := b.angle + thetaBDot * dt,
            momentum := b.momentum + momentumBDot * dt })

/-! ## Theorems -/

/-- C1: for every pendulum pair state and gravity, both copies of the
dynamics derivative function (the deriviative function of
DoublePendulum.tsx and the derivative method of PendulumSimulator)
return exactly the four values of the Lagrangian equations of the spec,
with cosD = cos(angle1 - angle2), sinD = sin(angle1 - angle2) and
D = 16 - 9 cosD^2.  This holds for all field values, in particular for all
positive lengths and masses. -/
theorem C1_derivative_matches_spec (T : Trig K) (p : PendulumPair K)
    (gravity : K) :
    deriviative T p gravity =
      derivativeSpecEquations T p.1.angle p.1.momentum p.2.angle p.2.momentum
        p.1.length p.1.mass p.2.length p.2.mass gravity ∧
    PendulumSimulator.derivative T gravity p =
      derivativeSpecEquations T p.1.angle p.1.momentum p.2.angle p.2.momentum
        p.1.length p.1.mass p.2.length p.2.mass gravity := by
  constructor <;>
    · simp only [deriviative, PendulumSimulator.derivative,
        derivativeSpecEquations, Prod.mk.injEq]
      refine ⟨by ring, by ring, by ring, by ring⟩

/-- C4: createPendulums copies the input angles, lengths and masses into
the corresponding fields of the two links and initializes both angular
momenta to exactly zero, for every input. -/
theorem C4_createPendulums_fields (startingAngles lengths masses : K × K) :
    (createPendulums startingAngles lengths masses).1.angle = startingAngles.1 ∧
    (createPendulums startingAngles lengths masses).1.length = lengths.1 ∧
    (createPendulums startingAngles lengths masses).1.mass = masses.1 ∧
    (createPendulums startingAngles lengths masses).2.angle = startingAngles.2 ∧
    (createPendulums startingAngles lengths masses).2.length = lengths.2 ∧
    (createPendulums startingAngles lengths masses).2.mass = masses.2 ∧
    (createPendulums startingAngles lengths masses).1.momentum = 0 ∧
    (createPendulums startingAngles lengths masses).2.momentum = 0 :=
  ⟨rfl, rfl, rfl, rfl, rfl, rfl, rfl, rfl⟩

/-- C8: one integrator step changes only the angle and momentum fields: the
length and mass fields of both links after the step equal their values
before it, both for the rk4 function and for the step method of the
simulator. -/
theorem C8_step_preserves_length_mass (T : Trig K) (p : PendulumPair K)
    (gravity dt : K) :
    (rk4 T p gravity dt).1.length = p.1.length ∧
    (rk4 T p gravity dt).1.mass = p.1.mass ∧
    (rk4 T p gravity dt).2.length = p.2.length ∧
    (rk4 T p gravity dt).2.mass = p.2.mass ∧
    (PendulumSimulator.step T dt p gravity).1.length = p.1.length ∧
    (PendulumSimulator.step T dt p gravity).1.mass = p.1.mass ∧
    (PendulumSimulator.step T dt p gravity).2.length = p.2.length ∧
    (PendulumSimulator.step T dt p gravity).2.mass = p.2.mass :=
  ⟨rfl, rfl, rfl, rfl, rfl, rfl, rfl, rfl⟩

/-- C5: the field evaluator derives the reference starting angles by the
affine map of the spec — normalizedUV = pixelCoordinate / resolution - 0.5
followed by startingAngles = normalizedUV * viewportSize + viewportCenter,
the resolution being the physical canvas resolution, the u_resolution
uniform scaled by the pixel density — and the perturbed starting angles add
the same fixed EPSILON = 0.0001 to both components of that result. -/
theorem C5_viewport_affine_map (fragCoord resolution : Vec2 K) (dpr : K)
    (size center : Vec2 K) :
    Shader.referenceAngles fragCoord resolution dpr size center =
      specStartingAngles fragCoord (resolution.1 * dpr, resolution.2 * dpr)
        size center ∧
    Shader.adjacentAngles fragCoord resolution dpr size center =
      ((Shader.referenceAngles fragCoord resolution dpr size center).1
          + (1 : K) / 10000,
       (Shader.referenceAngles fragCoord resolution dpr size center).2
          + (1 : K) / 10000) :=
  ⟨rfl, rfl⟩

/-- C2: one step of the source rk4 integrator computes exactly the
classical 4-stage RK4 update of the spec on the joint 4-dimensional state
(angle1, momentum1, angle2, momentum2): viewed through toJoint, rk4 equals
the scheme k1 = f(state), k2 = f(state + dt/2 k1), k3 = f(state + dt/2 k2),
k4 = f(state + dt k3), new state = state + dt/6 (k1 + 2 k2 + 2 k3 + k4),
with f the dynamics derivative and the intermediate states updating both
links jointly. -/
theorem C2_rk4_is_spec_scheme (T : Trig K) (p : PendulumPair K)
    (gravity dt : K) :
    toJoint (rk4 T p gravity dt) =
      rk4SpecScheme T p.1.length p.1.mass p.2.length p.2.mass gravity dt
        (toJoint p) := by
  obtain ⟨⟨a1, q1, l1, m1⟩, ⟨a2, q2, l2, m2⟩⟩ := p
  simp only [rk4, rk4SpecScheme, jointDerivative, toJoint, vadd, vsmul]
  generalize deriviative T (⟨a1, q1, l1, m1⟩, ⟨a2, q2, l2, m2⟩) gravity = d1
  have e21 : a1 + (d1.1 * dt) / 2 = a1 + dt / 2 * d1.1 := by ring
  have e22 : a2 + (d1.2.1 * dt) / 2 = a2 + dt / 2 * d1.2.1 := by ring
  have e23 : q1 + (d1.2.2.1 * dt) / 2 = q1 + dt / 2 * d1.2.2.1 := by ring
  have e24 : q2 + (d1.2.2.2 * dt) / 2 = q2 + dt / 2 * d1.2.2.2 := by ring
  rw [e21, e22, e23, e24]
  generalize deriviative T
      (⟨a1 + dt / 2 * d1.1, q1 + dt / 2 * d1.2.2.1, l1, m1⟩,
       ⟨a2 + dt / 2 * d1.2.1, q2 + dt / 2 * d1.2.2.2, l2, m2⟩) gravity = d2
  have e31 : a1 + (d2.1 * dt) / 2 = a1 + dt / 2 * d2.1 := by ring
  have e32 : a2 + (d2.2.1 * dt) / 2 = a2 + dt / 2 * d2.2.1 := by ring
  have e33 : q1 + (d2.2.2.1 * dt) / 2 = q1 + dt / 2 * d2.2.2.1 := by ring
  have e34 : q2 + (d2.2.2.2 * dt) / 2 = q2 + dt / 2 * d2.2.2.2 := by ring
  rw [e31, e32, e33, e34]
  generalize deriviative T
      (⟨a1 + dt / 2 * d2.1, q1 + dt / 2 * d2.2.2.1, l1, m1⟩,
       ⟨a2 + dt / 2 * d2.2.1, q2 + dt / 2 * d2.2.2.2, l2, m2⟩) gravity = d3
  have e41 : a1 + d3.1 * dt = a1 + dt * d3.1 := by ring
  have e42 : a2 + d3.2.1 * dt = a2 + dt * d3.2.1 := by ring
  have e43 : q1 + d3.2.2.1 * dt = q1 + dt * d3.2.2.1 := by ring
  have e44 : q2 + d3.2.2.2 * dt = q2 + dt * d3.2.2.2 := by ring
  rw [e41, e42, e43, e44]
  generalize deriviative T
      (⟨a1 + dt * d3.1, q1 + dt * d3.2.2.1, l1, m1⟩,
       ⟨a2 + dt * d3.2.1, q2 + dt * d3.2.2.2, l2, m2⟩) gravity = d4
  simp only [Prod.mk.injEq]
  refine ⟨by ring, by ring, by ring, by ring⟩

/-- Helper: the shader derivative on the vec4 layout computes the same four
scalars as the derivative method of the host simulator, componentwise. -/
theorem shader_derivative_mk (T : Trig K) (gravity A1 Q1 L1 M1 A2 Q2 L2 M2 : K) :
    Shader.derivative T gravity ⟨L1, M1, A1, Q1⟩ ⟨L2, M2, A2, Q2⟩ =
      ⟨(PendulumSimulator.derivative T gravity
          (⟨A1, Q1, L1, M1⟩, ⟨A2, Q2, L2, M2⟩)).1,
       (PendulumSimulator.derivative T gravity
          (⟨A1, Q1, L1, M1⟩, ⟨A2, Q2, L2, M2⟩)).2.1,
       (PendulumSimulator.derivative T gravity
          (⟨A1, Q1, L1, M1⟩, ⟨A2, Q2, L2, M2⟩)).2.2.1,
       (PendulumSimulator.derivative T gravity
          (⟨A1, Q1, L1, M1⟩, ⟨A2, Q2, L2, M2⟩)).2.2.2⟩ := rfl

/-- C3: the update step of the per-pixel field evaluator of the fragment
shader and the update step of the single-pendulum host simulator are the
same algorithm: as functions of (state, gravity, dt) they are extensionally
equal, through the vec4 layout conversion, exactly over the field (the only
textual difference between the two sources, the grouping of the final
dt/6 factor, is algebraically neutral). -/
theorem C3_shader_step_eq_simulator_step (T : Trig K) (p : PendulumPair K)
    (gravity dt : K) :
    Shader.simulateTimeStep T gravity dt (toVec p.1) (toVec p.2) =
      (toVec (PendulumSimulator.step T dt p gravity).1,
       toVec (PendulumSimulator.step T dt p gravity).2) := by
  obtain ⟨⟨A1, Q1, L1, M1⟩, ⟨A2, Q2, L2, M2⟩⟩ := p
  simp only [Shader.simulateTimeStep, PendulumSimulator.step, toVec,
    shader_derivative_mk, Prod.mk.injEq, Vec4.mk.injEq]
  refine ⟨⟨trivial, trivial, by ring, by ring⟩, ⟨trivial, trivial, by ring, by ring⟩⟩

/-- Helper: with zero gravity and the pair at rest at zero angles, the
derivative of the simulator vanishes, for every trig interface (the
momentum terms vanish because both momenta are zero, and the gravity terms
because gravity is zero). -/
theorem simulator_derivative_rest_zero (T : Trig K) (l1 l2 m1 m2 : K) :
    PendulumSimulator.derivative T 0
      (⟨0, 0, l1, m1⟩, ⟨0, 0, l2, m2⟩) = (0, 0, 0, 0) := by
  simp only [PendulumSimulator.derivative, Prod.mk.injEq]
  refine ⟨by ring, by ring, by ring, by ring⟩

/-- Helper: the rest state at zero angles is a fixed point of one simulator
step when gravity is zero. -/
theorem simulator_step_rest_fixed (T : Trig K) (dt l1 l2 m1 m2 : K) :
    PendulumSimulator.step T dt (createPendulums (0, 0) (l1, l2) (m1, m2)) 0 =
      createPendulums (0, 0) (l1, l2) (m1, m2) := by
  simp only [createPendulums, PendulumSimulator.step,
    simulator_derivative_rest_zero, zero_mul, mul_zero, zero_div, zero_add,
    add_zero]

/-- Helper: the rest state at zero angles is a fixed point of any number of
simulator steps when gravity is zero. -/
theorem stepIter_rest_fixed (T : Trig K) (dt l1 l2 m1 m2 : K) (n : ℕ) :
    stepIter T dt 0 n (createPendulums (0, 0) (l1, l2) (m1, m2)) =
      createPendulums (0, 0) (l1, l2) (m1, m2) := by
  induction n with
  | zero => rfl
  | succ n ih =>
      rw [stepIter, simulator_step_rest_fixed]
      exact ih

/-- C7: with gravity zero and both starting angles zero, the pair built by
createPendulums is a fixed point of the integrator: for all positive
lengths and masses, every time step dt and every number n of step calls,
both angles and both momenta are still exactly zero after n steps. -/
theorem C7_zero_gravity_fixed_point (T : Trig K) (l1 l2 m1 m2 : K)
    (hl1 : 0 < l1) (hl2 : 0 < l2) (hm1 : 0 < m1) (hm2 : 0 < m2)
    (dt : K) (n : ℕ) :
    (stepIter T dt 0 n (createPendulums (0, 0) (l1, l2) (m1, m2))).1.angle = 0 ∧
    (stepIter T dt 0 n (createPendulums (0, 0) (l1, l2) (m1, m2))).2.angle = 0 ∧
    (stepIter T dt 0 n (createPendulums (0, 0) (l1, l2) (m1, m2))).1.momentum = 0 ∧
    (stepIter T dt 0 n (createPendulums (0, 0) (l1, l2) (m1, m2))).2.momentum = 0 := by
  rw [stepIter_rest_fixed]
  exact ⟨rfl, rfl, rfl, rfl⟩

set_option maxRecDepth 8192 in
set_option maxHeartbeats 2000000 in
/-- Witness for C7: at rational lengths 1, masses 1, dt 1, one step, with
a concrete trig interface, the hypotheses hold and the state stays at
rest. -/
theorem C7_zero_gravity_fixed_point_witness :
    (0 : ℚ) < 1 ∧
    (stepIter (K := ℚ) ⟨fun _ => 0, fun _ => 0⟩ 1 0 1
        (createPendulums (0, 0) (1, 1) (1, 1))).1.angle = 0 ∧
    (stepIter (K := ℚ) ⟨fun _ => 0, fun _ => 0⟩ 1 0 1
        (createPendulums (0, 0) (1, 1) (1, 1))).2.angle = 0 ∧
    (stepIter (K := ℚ) ⟨fun _ => 0, fun _ => 0⟩ 1 0 1
        (createPendulums (0, 0) (1, 1) (1, 1))).1.momentum = 0 ∧
    (stepIter (K := ℚ) ⟨fun _ => 0, fun _ => 0⟩ 1 0 1
        (createPendulums (0, 0) (1, 1) (1, 1))).2.momentum = 0 :=
  ⟨by norm_num,
   C7_zero_gravity_fixed_point _ _ _ _ _ (by norm_num) (by norm_num)
     (by norm_num) (by norm_num) _ _⟩

/-- Helper: for every positive pi value, angleToSample at the angle -pi
returns -2: the JavaScript remainder of -pi by 2 pi is -pi itself, because
the truncated quotient of -1/2 is zero. -/
theorem angleToSample_neg_pi [FloorRing K] (piK : K) (hpi : 0 < piK) :
    angleToSample piK (-piK) = -2 := by
  have hne : (2 : K) * piK ≠ 0 := by positivity
  have hq : (-piK) / (2 * piK) = -(1 / 2 : K) := by
    rw [div_eq_iff hne]
    ring
  have hc : jsTrunc ((-piK) / (2 * piK)) = 0 := by
    rw [jsTrunc, hq, if_neg (by norm_num), Int.ceil_neg, neg_eq_zero,
      Int.floor_eq_zero_iff]
    constructor <;> norm_num
  rw [angleToSample, jsRem, hc]
  rw [Int.cast_zero, mul_zero, sub_zero, neg_div, div_self hpi.ne']
  ring

/-- Counterexample for C9: at the negative angle -Math.PI (angles of the
simulator are unbounded and may be negative), angleToSample returns -2,
which is neither the mathematical (angle mod 2 pi) / pi - 1 (that would be
0) nor inside [-1, 1]: the JavaScript remainder takes the sign of the
dividend. -/
theorem C9_counterexample :
    angleToSample (K := ℚ) piFloat (-piFloat) = -2 ∧
    ¬(-1 ≤ angleToSample (K := ℚ) piFloat (-piFloat) ∧
      angleToSample (K := ℚ) piFloat (-piFloat) ≤ 1) ∧
    angleToSample (K := ℚ) piFloat (-piFloat) ≠
      mathMod (-piFloat) (2 * piFloat) / piFloat - 1 := by
  have hpi : (0 : ℚ) < piFloat := by norm_num [piFloat]
  have h2 := angleToSample_neg_pi (K := ℚ) piFloat hpi
  have hq : (-piFloat) / (2 * piFloat) = -(1 / 2 : ℚ) := by
    rw [div_eq_iff (by positivity : (2 : ℚ) * piFloat ≠ 0)]
    ring
  refine ⟨h2, ?_, ?_⟩
  · rw [h2]
    norm_num
  · rw [h2, mathMod, hq]
    have hfl : ⌊-(1 / 2 : ℚ)⌋ = -1 := by
      rw [Int.floor_eq_iff]
      constructor <;> norm_num
    rw [hfl]
    have hsimp : -piFloat - 2 * piFloat * ((-1 : ℤ) : ℚ) = piFloat := by
      push_cast
      ring
    rw [hsimp, div_self hpi.ne']
    norm_num

/-- C9 amended: for every nonnegative finite angle, angleToSample returns
(angle mod 2 pi) / pi - 1 (mathematical modulus) and the result lies in
[-1, 1]; for every negative angle the JavaScript remainder carries the sign
of the dividend, so the sample lies in the interval (-3, -1] — it reaches
exactly -1 at negative even multiples of pi (where the remainder is -0)
and otherwise falls below -1, outside the claimed interval. -/
theorem C9_amended_sample_range [FloorRing K] (piK : K) (hpi : 0 < piK)
    (angle : K) :
    (0 ≤ angle →
      angleToSample piK angle = mathMod angle (2 * piK) / piK - 1 ∧
      -1 ≤ angleToSample piK angle ∧ angleToSample piK angle ≤ 1) ∧
    (angle < 0 →
      -3 < angleToSample piK angle ∧ angleToSample piK angle ≤ -1) := by
  have h2pi : (0 : K) < 2 * piK := by positivity
  have hmul : angle / (2 * piK) * (2 * piK) = angle :=
    div_mul_cancel₀ angle (ne_of_gt h2pi)
  constructor
  · intro ha
    have hq0 : 0 ≤ angle / (2 * piK) := div_nonneg ha h2pi.le
    have htr : jsTrunc (angle / (2 * piK)) = ⌊angle / (2 * piK)⌋ := if_pos hq0
    have hfl : (⌊angle / (2 * piK)⌋ : K) ≤ angle / (2 * piK) :=
      Int.floor_le _
    have hfu : angle / (2 * piK) < (⌊angle / (2 * piK)⌋ : K) + 1 :=
      Int.lt_floor_add_one _
    have hrem0 : 0 ≤ jsRem angle (2 * piK) := by
      rw [jsRem, htr]
      have h1 : 2 * piK * (⌊angle / (2 * piK)⌋ : K) ≤
          2 * piK * (angle / (2 * piK)) :=
        mul_le_mul_of_nonneg_left hfl h2pi.le
      nlinarith [hmul]
    have hremlt : jsRem angle (2 * piK) < 2 * piK := by
      rw [jsRem, htr]
      have h1 : 2 * piK * (angle / (2 * piK)) <
          2 * piK * ((⌊angle / (2 * piK)⌋ : K) + 1) :=
        mul_lt_mul_of_pos_left hfu h2pi
      nlinarith [hmul]
    refine ⟨by rw [angleToSample, jsRem, mathMod, htr], ?_, ?_⟩
    · have h1 : 0 ≤ jsRem angle (2 * piK) / piK := div_nonneg hrem0 hpi.le
      rw [angleToSample]
      linarith
    · have h1 : jsRem angle (2 * piK) / piK < 2 := by
        rw [div_lt_iff₀ hpi]
        linarith
      rw [angleToSample]
      linarith
  · intro ha
    have hqneg : angle / (2 * piK) < 0 := div_neg_of_neg_of_pos ha h2pi
    have htr : jsTrunc (angle / (2 * piK)) = ⌈angle / (2 * piK)⌉ :=
      if_neg (not_le.mpr hqneg)
    have hcl : angle / (2 * piK) ≤ (⌈angle / (2 * piK)⌉ : K) :=
      Int.le_ceil _
    have hcu : (⌈angle / (2 * piK)⌉ : K) < angle / (2 * piK) + 1 :=
      Int.ceil_lt_add_one _
    have hrem0 : jsRem angle (2 * piK) ≤ 0 := by
      rw [jsRem, htr]
      have h1 : 2 * piK * (angle / (2 * piK)) ≤
          2 * piK * (⌈angle / (2 * piK)⌉ : K) :=
        mul_le_mul_of_nonneg_left hcl h2pi.le
      nlinarith [hmul]
    have hremgt : -(2 * piK) < jsRem angle (2 * piK) := by
      rw [jsRem, htr]
      have h1 : 2 * piK * (⌈angle / (2 * piK)⌉ : K) <
          2 * piK * (angle / (2 * piK) + 1) :=
        mul_lt_mul_of_pos_left hcu h2pi
      nlinarith [hmul]
    constructor
    · have h1 : -2 < jsRem angle (2 * piK) / piK := by
        rw [lt_div_iff₀ hpi]
        linarith
      rw [angleToSample]
      linarith
    · have h1 : jsRem angle (2 * piK) / piK ≤ 0 := by
        rw [div_le_iff₀ hpi]
        linarith
      rw [angleToSample]
      linarith

/-- Witness for C9 amended: over the rationals with pi 3, the hypotheses
hold at the angles 7 and -5; the sample at 7 is the mathematical modulus
form and lies in [-1, 1], and the sample at -5 lies in (-3, -1]. -/
theorem C9_amended_sample_range_witness :
    (0 : ℚ) < 3 ∧ (0 : ℚ) ≤ 7 ∧ (-5 : ℚ) < 0 ∧
    (angleToSample (K := ℚ) 3 7 = mathMod 7 (2 * 3) / 3 - 1 ∧
     -1 ≤ angleToSample (K := ℚ) 3 7 ∧ angleToSample (K := ℚ) 3 7 ≤ 1) ∧
    (-3 < angleToSample (K := ℚ) 3 (-5) ∧
     angleToSample (K := ℚ) 3 (-5) ≤ -1) :=
  ⟨by norm_num, by norm_num, by norm_num,
   (C9_amended_sample_range (K := ℚ) 3 (by norm_num) 7).1 (by norm_num),
   (C9_amended_sample_range (K := ℚ) 3 (by norm_num) (-5)).2 (by norm_num)⟩

/-- Helper: a fold whose body preserves list length preserves list
length. -/
theorem foldl_length_invariant {A : Type} (f : List A → ℕ → List A)
    (hf : ∀ w k, (f w k).length = w.length) :
    ∀ (ks : List ℕ) (w : List A), (ks.foldl f w).length = w.length := by
  intro ks
  induction ks with
  | nil => intro w; rfl
  | cons k ks ih =>
      intro w
      rw [List.foldl_cons, ih, hf]

/-- Helper: a fold whose body leaves position i unchanged for every index
of the fold list leaves position i unchanged. -/
theorem foldl_getElem_invariant {A : Type} (f : List A → ℕ → List A)
    (i : ℕ) :
    ∀ (ks : List ℕ) (w : List A), (∀ k, k ∈ ks → ∀ v : List A, (f v k)[i]? = v[i]?) →
      (ks.foldl f w)[i]? = w[i]? := by
  intro ks
  induction ks with
  | nil => intro w _; rfl
  | cons k ks ih =>
      intro w h
      rw [List.foldl_cons, ih (f w k) (fun a ha v => h a (List.mem_cons_of_mem k ha) v),
        h k (List.mem_cons_self k ks) w]

/-- C10: the cross-fade smoothing returns a list of the same length as its
input; with N the floor of (crossFadeMs / 1000) * sampleRate, if N ≤ 0 or
2 N reaches the length it returns the input unchanged; and every entry at
an index at least N.toNat and below length - N.toNat is always unchanged —
only the first N and last N entries can differ. -/
theorem C10_smoothAudioEnds_frame [FloorRing K] (T : Trig K) (piK : K)
    (samples : List K) (crossFadeMs sampleRate : K) :
    (smoothAudioEnds T piK samples crossFadeMs sampleRate).length =
        samples.length ∧
    ((⌊crossFadeMs / 1000 * sampleRate⌋ ≤ 0 ∨
        ⌊crossFadeMs / 1000 * sampleRate⌋ * 2 ≥ (samples.length : ℤ)) →
      smoothAudioEnds T piK samples crossFadeMs sampleRate = samples) ∧
    (∀ i : ℕ, (⌊crossFadeMs / 1000 * sampleRate⌋).toNat ≤ i →
      i < samples.length - (⌊crossFadeMs / 1000 * sampleRate⌋).toNat →
      (smoothAudioEnds T piK samples crossFadeMs sampleRate)[i]? =
        samples[i]?) := by
  by_cases h : ⌊crossFadeMs / 1000 * sampleRate⌋ ≤ 0 ∨
      ⌊crossFadeMs / 1000 * sampleRate⌋ * 2 ≥ (samples.length : ℤ)
  · rw [smoothAudioEnds, if_pos h]
    exact ⟨rfl, fun _ => rfl, fun _ _ _ => rfl⟩
  · rw [smoothAudioEnds, if_neg h]
    refine ⟨?_, fun hdeg => absurd hdeg h, ?_⟩
    · apply foldl_length_invariant
      intro w k
      rw [List.length_set, List.length_set]
    · intro i hNi hilt
      apply foldl_getElem_invariant
      intro k hk v
      have hkN : k < (⌊crossFadeMs / 1000 * sampleRate⌋).toNat :=
        List.mem_range.mp hk
      have hki : k ≠ i := Nat.ne_of_lt (lt_of_lt_of_le hkN hNi)
      have htaili :
          samples.length - (⌊crossFadeMs / 1000 * sampleRate⌋).toNat + k ≠ i := by
        have : i < samples.length -
            (⌊crossFadeMs / 1000 * sampleRate⌋).toNat + k :=
          lt_of_lt_of_le hilt (Nat.le_add_right _ _)
        exact (Nat.ne_of_lt this).symm
      rw [List.getElem?_set_ne hki, List.getElem?_set_ne htaili]

/-- Witness for C10: on the rational sample list [1, 2, 3, 4, 5] with a
cross-fade of 1000 ms at sample rate 1 (so N = 1), the length is preserved
and the middle entry at index 2 is unchanged; and on [1, 2, 3] with a
cross-fade of 10000 ms (so 2 N ≥ length) the input is returned
unchanged. -/
theorem C10_smoothAudioEnds_frame_witness :
    (smoothAudioEnds (K := ℚ) ⟨fun _ => 0, fun _ => 0⟩ 3 [1, 2, 3, 4, 5]
        1000 1).length = 5 ∧
    smoothAudioEnds (K := ℚ) ⟨fun _ => 0, fun _ => 0⟩ 3 [1, 2, 3] 10000 1 =
        [1, 2, 3] ∧
    (smoothAudioEnds (K := ℚ) ⟨fun _ => 0, fun _ => 0⟩ 3 [1, 2, 3, 4, 5]
        1000 1)[2]? = some 3 := by
  have hN1 : ⌊(1000 : ℚ) / 1000 * 1⌋ = 1 := by
    rw [Int.floor_eq_iff]
    norm_num
  have hN10 : ⌊(10000 : ℚ) / 1000 * 1⌋ = 10 := by
    rw [Int.floor_eq_iff]
    norm_num
  have h := C10_smoothAudioEnds_frame (K := ℚ) ⟨fun _ => 0, fun _ => 0⟩ 3
    [1, 2, 3, 4, 5] 1000 1
  have h2 := C10_smoothAudioEnds_frame (K := ℚ) ⟨fun _ => 0, fun _ => 0⟩ 3
    [1, 2, 3] 10000 1
  refine ⟨h.1, h2.2.1 ?_, ?_⟩
  · rw [hN10]
    right
    norm_num
  · have h3 := h.2.2 2 (by rw [hN1]; norm_num) (by rw [hN1]; norm_num)
    rw [h3]
    rfl

/-- C6 (code bug evidence): at the degenerate input angleDiff = (0, 0) the
color-mapping step of the shader main function normalizes the zero vector:
in the float model the zero-over-zero division is non-finite, the NaN flows
through atan and the hue into hsv2rgb, and all three components of the
produced color are non-finite — the code has no guard mapping non-finite
divergence to a defined sentinel color, contrary to the spec requirement.
The hypothesis pins the square root of zero to zero, as in GLSL. -/
theorem C6_color_nan_at_zero_diff [DecidableEq K] [FloorRing K]
    (sq : K → K) (at2 : K → K → K) (piK : K) (hsq : sq 0 = 0) :
    (FM.colorAtDiff sq at2 piK (some 0, some 0)).1 = none ∧
    (FM.colorAtDiff sq at2 piK (some 0, some 0)).2.1 = none ∧
    (FM.colorAtDiff sq at2 piK (some 0, some 0)).2.2 = none := by
  by_cases hv : (2 * 2 * piK : K) = 0 <;>
    simp [FM.colorAtDiff, FM.fNormalize, FM.fLength, FM.fMul, FM.fAdd,
      FM.lift2, FM.fDiv, FM.fAtan2, FM.hsv2rgb, FM.fAbs, FM.fFract,
      FM.fSub, FM.fClamp, FM.fMix, hsq, hv]

/-- Witness for C6: over the rationals with the identity as square root
(which sends zero to zero), a zero atan and pi 3, the color at the zero
angle difference is non-finite in every component. -/
theorem C6_color_nan_at_zero_diff_witness :
    (fun x : ℚ => x) 0 = 0 ∧
    ((FM.colorAtDiff (fun x : ℚ => x) (fun _ _ => 0) 3
        (some 0, some 0)).1 = none ∧
     (FM.colorAtDiff (fun x : ℚ => x) (fun _ _ => 0) 3
        (some 0, some 0)).2.1 = none ∧
     (FM.colorAtDiff (fun x : ℚ => x) (fun _ _ => 0) 3
        (some 0, some 0)).2.2 = none) :=
  ⟨rfl, C6_color_nan_at_zero_diff (fun x : ℚ => x) (fun _ _ => 0) 3 rfl⟩

/-- Counterexample for C3: the older Euler shader variant (shader.frag
lines 57 to 72) is not extensionally equal to the RK4 step of the host
simulator: at the state with both links at angle 0 and momentum 0, lengths
and masses 1, gravity 1, dt 1, with a trig interface sending sin to 1 and
cos to 0, the momenta of the second link disagree after one step (the
Euler variant also weighs gravity on the second link by 1 instead of 3). -/
theorem C3_euler_variant_counterexample :
    (simulateTimeStepEuler (K := ℚ) ⟨fun _ => 1, fun _ => 0⟩ 1 1
        ⟨0, 0, 1, 1⟩ ⟨0, 0, 1, 1⟩).2.momentum ≠
      (PendulumSimulator.step (K := ℚ) ⟨fun _ => 1, fun _ => 0⟩ 1
        (⟨0, 0, 1, 1⟩, ⟨0, 0, 1, 1⟩) 1).2.momentum := by
  simp only [simulateTimeStepEuler, PendulumSimulator.step,
    PendulumSimulator.derivative]
  norm_num

end DoubleTheFun
